import Mathlib

/-!
Verification development for the pubky-nexus event ingestion and
cache-consistency engine.  Rust source functions are shallow-embedded as
executable Lean definitions; the store-side state (Redis lists, sorted
sets, JSON records) is made explicit, and the asynchronous operations are
modelled as state-passing functions.  Machine integers are modelled as
`Nat`/`Int` with explicit two's-complement casts where the source casts.
-/

namespace KvLists

/-! ## `nexus-common/src/db/kv/index/lists.rs`

A Redis list is modelled as `List String`; an absent key is the empty
list (Redis removes empty list keys, and `RPUSH` creates missing ones).
-/

/-- One iteration of the Lua script used by `put`: `LPOS` checks whether
`value` is already present, and only if not does `RPUSH` append it. -/
def scriptStep (l : List String) (value : String) : List String :=
  if value ∈ l then l else l ++ [value]

/-- Embedding of `put(prefix, key, values)` acting on the list stored at
`prefix:key`.  The early return on an empty `values` slice leaves the key
untouched; otherwise the single atomic Lua script folds `scriptStep` over
the arguments in order. -/
def put (l : List String) (values : List String) : List String :=
  if values.isEmpty then l
  else values.foldl scriptStep l

/-- The state of the key after a whole sequence of `put` calls, starting
from an absent key. -/
def putCalls (calls : List (List String)) : List String :=
  calls.foldl put []

/-- Specification-side description of "each value once, in order of first
occurrence": keep the head and erase its later duplicates. -/
def keepFirst : List String → List String
  | [] => []
  | v :: rest => v :: keepFirst (rest.filter (fun u => u ≠ v))
termination_by l => l.length
decreasing_by
  simp only [List.length_cons]
  exact Nat.lt_succ_of_le (List.length_filter_le _ _)

/-- `put` with a non-empty argument list is the same fold, and on an empty
argument list the fold is the identity, so `put` is always the fold. -/
theorem put_eq_foldl (l : List String) (values : List String) :
    put l values = values.foldl scriptStep l := by
  unfold put
  cases values with
  | nil => simp
  | cons v rest => simp

theorem foldl_scriptStep_eq (acc : List String) (vs : List String) :
    vs.foldl scriptStep acc
      = acc ++ keepFirst (vs.filter (fun v => v ∉ acc)) := by
  induction vs generalizing acc with
  | nil => simp [keepFirst]
  | cons v rest ih =>
    by_cases hv : v ∈ acc
    · simp only [List.foldl_cons, scriptStep, if_pos hv, List.filter_cons]
      have hd : (decide (v ∉ acc)) = false := by simp [hv]
      rw [hd]
      simp only [Bool.false_eq_true, if_false]
      exact ih acc
    · simp only [List.foldl_cons, scriptStep, if_neg hv, List.filter_cons]
      have hd : (decide (v ∉ acc)) = true := by simp [hv]
      rw [hd]
      simp only [if_pos]
      rw [ih (acc ++ [v])]
      simp only [keepFirst, List.append_assoc, List.singleton_append,
        List.filter_filter]
      congr 2
      congr 1
      apply List.filter_congr
      intro u _
      by_cases huv : u = v <;> by_cases hua : u ∈ acc <;>
        simp [huv, hua]

theorem keepFirst_eq_foldl (vs : List String) :
    keepFirst vs = vs.foldl scriptStep [] := by
  rw [foldl_scriptStep_eq]
  simp

theorem mem_foldl_scriptStep (x : String) (acc : List String)
    (vs : List String) :
    x ∈ vs.foldl scriptStep acc ↔ x ∈ acc ∨ x ∈ vs := by
  induction vs generalizing acc with
  | nil => simp
  | cons v rest ih =>
    simp only [List.foldl_cons, ih, List.mem_cons]
    unfold scriptStep
    by_cases hv : v ∈ acc
    · simp only [if_pos hv]
      constructor
      · rintro (h | h)
        · exact Or.inl h
        · exact Or.inr (Or.inr h)
      · rintro (h | rfl | h)
        · exact Or.inl h
        · exact Or.inl hv
        · exact Or.inr h
    · simp only [if_neg hv, List.mem_append, List.mem_singleton]
      tauto

/-- Folding the script step preserves `Nodup`. -/
theorem nodup_foldl_scriptStep (acc : List String) (vs : List String)
    (h : acc.Nodup) : (vs.foldl scriptStep acc).Nodup := by
  induction vs generalizing acc with
  | nil => simpa using h
  | cons v rest ih =>
    simp only [List.foldl_cons]
    apply ih
    unfold scriptStep
    by_cases hv : v ∈ acc
    · simpa [hv]
    · simp only [hv, if_false]
      exact List.Nodup.append h (List.nodup_singleton v) (by
        intro a ha hb
        simp only [List.mem_singleton] at hb
        exact hv (hb ▸ ha))

theorem keepFirst_nodup (vs : List String) : (keepFirst vs).Nodup := by
  rw [keepFirst_eq_foldl]
  exact nodup_foldl_scriptStep [] vs List.nodup_nil

theorem mem_keepFirst (vs : List String) (x : String) :
    x ∈ keepFirst vs ↔ x ∈ vs := by
  rw [keepFirst_eq_foldl, mem_foldl_scriptStep]
  simp

theorem putCalls_eq_keepFirst (calls : List (List String)) :
    putCalls calls = keepFirst calls.flatten := by
  have h : ∀ (cs : List (List String)) (acc : List String),
      cs.foldl put acc = cs.flatten.foldl scriptStep acc := by
    intro cs
    induction cs with
    | nil => intro acc; simp
    | cons c rest ih =>
      intro acc
      simp only [List.foldl_cons, List.flatten_cons, List.foldl_append,
        put_eq_foldl]
      exact ih _
  rw [putCalls, h, keepFirst_eq_foldl]

/-! ### `get_range` -/

/-- `usize::MAX` on a 64-bit target, the value `limit.unwrap_or` defaults
to in `get_range`. -/
def usizeMAX : Nat := 2 ^ 64 - 1

/-- Rust's `as isize` cast from `usize` on a 64-bit target:
a two's-complement reinterpretation of the 64-bit pattern. -/
def isizeOfUsize (n : Nat) : Int :=
  if n < 2 ^ 63 then (n : Int) else (n : Int) - 2 ^ 64

/-- Redis `LRANGE key start stop`: negative indexes count from the end,
the start is clamped to the head, the stop to the tail, and an inverted
range yields the empty list. -/
def lrange (l : List String) (start stop : Int) : List String :=
  let n : Int := l.length
  let s0 : Int := if start < 0 then n + start else start
  let e0 : Int := if stop < 0 then n + stop else stop
  let s : Int := max s0 0
  let e : Int := min e0 (n - 1)
  if e < s then [] else (l.drop s.toNat).take (e - s + 1).toNat

/-- Embedding of `get_range(prefix, key, skip, limit)` acting on the list
stored at `prefix:key`: defaults are applied (`skip` → 0, `limit` →
`usize::MAX`), both are cast `as isize`, and the `LRANGE` result is
returned with an empty result mapped to `None`. -/
def get_range (l : List String) (skip limit : Option Nat) :
    Option (List String) :=
  let sk := skip.getD 0
  let li := limit.getD usizeMAX
  let start := isizeOfUsize sk
  let stop := start + isizeOfUsize li - 1
  let result := lrange l start stop
  match result.length with
  | 0 => none
  | _ => some result

theorem isizeOfUsize_usizeMAX : isizeOfUsize usizeMAX = -1 := by
  unfold isizeOfUsize usizeMAX
  norm_num

theorem isizeOfUsize_small {n : Nat} (h : n < 2 ^ 63) :
    isizeOfUsize n = (n : Int) := by
  unfold isizeOfUsize
  split
  · rfl
  · next hc => exact absurd h hc

theorem lrange_zero_negtwo (l : List String) :
    lrange l 0 (-2) = l.take (l.length - 1) := by
  unfold lrange
  simp only [show ¬ ((0 : Int) < 0) from by omega, if_false,
    show ((-2 : Int) < 0) from by norm_num, if_true, max_self, if_pos]
  have hmin : ((l.length : Int) + -2) ⊓ ((l.length : Int) - 1)
      = (l.length : Int) - 2 := by omega
  rw [hmin]
  by_cases h : l.length ≤ 1
  · rw [if_pos (show ((l.length : Int) - 2) < 0 from by omega)]
    have h0 : l.length - 1 = 0 := by omega
    simp [h0]
  · rw [if_neg (show ¬ (((l.length : Int) - 2) < 0) from by omega)]
    have h2 : ((l.length : Int) - 2 - 0 + 1).toNat = l.length - 1 := by omega
    rw [h2]
    simp

theorem get_range_none_none (l : List String) :
    get_range l (some 0) none
      = if l.length ≤ 1 then none else some (l.take (l.length - 1)) := by
  unfold get_range
  simp only [Option.getD_some, Option.getD_none, isizeOfUsize_usizeMAX,
    isizeOfUsize_small (show (0 : Nat) < 2 ^ 63 from by norm_num),
    Nat.cast_zero]
  have hstop : (0 : Int) + -1 - 1 = -2 := by norm_num
  rw [hstop, lrange_zero_negtwo]
  by_cases h : l.length ≤ 1
  · have h0 : l.length - 1 = 0 := by omega
    simp [h, h0]
  · have h0 : (l.take (l.length - 1)).length = l.length - 1 := by
      simp only [List.length_take]
      omega
    rw [h0]
    obtain ⟨k, hk⟩ : ∃ k, l.length - 1 = k + 1 := ⟨l.length - 2, by omega⟩
    rw [hk]
    simp [h, hk]

theorem get_range_explicit_limit (l : List String) (L : Nat)
    (hne : l ≠ []) (hlen : l.length ≤ L) (hL : L < 2 ^ 63) :
    get_range l (some 0) (some L) = some l := by
  unfold get_range
  simp only [Option.getD_some, isizeOfUsize_small hL,
    isizeOfUsize_small (show (0 : Nat) < 2 ^ 63 from by norm_num),
    Nat.cast_zero]
  have hn : 1 ≤ l.length := List.length_pos.mpr hne
  have hstop : (0 : Int) + (L : Int) - 1 = (L : Int) - 1 := by ring
  rw [hstop]
  unfold lrange
  simp only [show ¬ ((0 : Int) < 0) from by omega, if_false, max_self]
  rw [if_neg (show ¬ (((L : Int) - 1) < 0) from by omega)]
  have hmin : ((L : Int) - 1) ⊓ ((l.length : Int) - 1)
      = (l.length : Int) - 1 := by omega
  rw [hmin]
  rw [if_neg (show ¬ (((l.length : Int) - 1) < 0) from by omega)]
  have h2 : ((l.length : Int) - 1 - 0 + 1).toNat = l.length := by omega
  rw [h2]
  simp only [Int.toNat_zero, List.drop_zero, List.take_length]
  obtain ⟨k, hk⟩ : ∃ k, l.length = k + 1 := ⟨l.length - 1, by omega⟩
  rw [hk]
  simp

end KvLists

namespace UserSearchModel

/-! ## `nexus-common/src/models/user/search.rs`

The two sorted sets `Sorted:Users:Name` and `Sorted:Users:ID` hold
members with score 0; each is modelled as its member list (a member is
never stored twice: `ZADD` on an existing member only refreshes the
score).  `ZSCAN` replies are modelled faithfully as the alternating
member/score flattening that `find_entries_by_user_id` walks with its
even-index filter. -/

/-- `UserDetails` restricted to the two fields `put_to_index` reads. -/
structure UserDetails where
  id : String
  name : String

/-- The two search indexes owned by `UserSearch`. -/
structure SearchState where
  nameIndex : List String
  idIndex : List String

/-- Rust's `str::ends_with`. -/
def endsWithR (s suf : String) : Bool :=
  decide (suf.data <:+ s.data)

/-- Rust's `str::to_lowercase`, a per-character lowercase map. -/
def toLowerR (s : String) : String :=
  ⟨s.data.map Char.toLower⟩

/-- The `ZSCAN` reply stream for a sorted set: alternating member /
score pairs (all scores are 0 in these indexes). -/
def zscanReply (members : List String) : List String :=
  members.flatMap (fun m => [m, "0"])

/-- The even-index positions of a `ZSCAN` reply, as selected by
`i % 2 == 0` in `find_entries_by_user_id`. -/
def evenPositions : List String → List String
  | [] => []
  | [m] => [m]
  | m :: _ :: rest => m :: evenPositions rest

/-- Embedding of `find_entries_by_user_id(user_id)`: walk the whole
`Sorted:Users:Name` set via `ZSCAN`, keep the members (even indices)
ending in `":{user_id}"`, and return `None` when nothing matched. -/
def find_entries_by_user_id (nameIndex : List String) (userId : String) :
    Option (List String) :=
  let suf := ":" ++ userId
  let matching :=
    (evenPositions (zscanReply nameIndex)).filter (fun e => endsWithR e suf)
  if matching.isEmpty then none else some matching

/-- `ZREM`: remove the given members from a sorted set. -/
def zrem (index : List String) (members : List String) : List String :=
  index.filter (fun e => e ∉ members)

/-- `ZADD` of one member with score 0: present members are untouched
(only their score is refreshed), absent ones are inserted. -/
def zadd (index : List String) (m : String) : List String :=
  if m ∈ index then index else index ++ [m]

def zaddAll (index : List String) (ms : List String) : List String :=
  ms.foldl zadd index

/-- Embedding of `UserSearch::delete_existing_records(user_ids)`: for
each user id collect every name-index entry ending in its suffix, then
`ZREM` those from the name index and the ids from the id index.  The
early return on an empty id slice is kept. -/
def delete_existing_records (userIds : List String) (s : SearchState) :
    SearchState :=
  if userIds.isEmpty then s
  else
    let toDelete := userIds.foldl (fun acc uid =>
      match find_entries_by_user_id s.nameIndex uid with
      | some entries => acc ++ entries
      | none => acc) []
    { nameIndex := zrem s.nameIndex toDelete
      idIndex := zrem s.idIndex userIds }

/-- Embedding of `UserSearch::put_to_index(details_list)`: delete all
existing records for the ids first, then insert the lowercased
`"{username}:{user_id}"` pairs (skipping `"[DELETED]"` names) and the
ids. -/
def put_to_index (detailsList : List UserDetails) (s : SearchState) :
    SearchState :=
  let s1 := delete_existing_records (detailsList.map (fun d => d.id)) s
  let kept := detailsList.filter (fun d => d.name ≠ "[DELETED]")
  let pairs := kept.map (fun d => toLowerR d.name ++ ":" ++ d.id)
  let ids := kept.map (fun d => d.id)
  { nameIndex := zaddAll s1.nameIndex pairs
    idIndex := zaddAll s1.idIndex ids }

/-- Embedding of `UserSearch::delete_from_index(user_id)`. -/
def delete_from_index (userId : String) (s : SearchState) : SearchState :=
  delete_existing_records [userId] s

theorem evenPositions_zscanReply (members : List String) :
    evenPositions (zscanReply members) = members := by
  induction members with
  | nil => rfl
  | cons m rest ih =>
    simp only [zscanReply, List.flatMap_cons] at *
    simpa [evenPositions] using ih

theorem find_entries_eq_filter (nameIndex : List String) (userId : String) :
    find_entries_by_user_id nameIndex userId
      = (let matching :=
          nameIndex.filter (fun e => endsWithR e (":" ++ userId))
        if matching.isEmpty then none else some matching) := by
  unfold find_entries_by_user_id
  rw [evenPositions_zscanReply]

/-- An appended suffix is found by `ends_with`. -/
theorem endsWithR_append (a suf : String) :
    endsWithR (a ++ suf) suf = true := by
  unfold endsWithR
  rw [decide_eq_true_eq, String.data_append]
  exact List.suffix_append _ _

/-- A stored pair `"{name}:{id}"` ends with `":{id}"`. -/
theorem endsWithR_pair (name id : String) :
    endsWithR (name ++ ":" ++ id) (":" ++ id) = true := by
  have h : name ++ ":" ++ id = name ++ (":" ++ id) := by
    rw [String.append_assoc]
  rw [h]
  exact endsWithR_append name (":" ++ id)

/-- After the delete phase for `uid`, no name-index entry ends in
`":{uid}"`. -/
theorem delete_phase_clears_suffix (s : SearchState) (uid : String) :
    ((delete_existing_records [uid] s).nameIndex.filter
      (fun e => endsWithR e (":" ++ uid))) = [] := by
  unfold delete_existing_records
  simp only [List.isEmpty_cons, Bool.false_eq_true, if_false,
    List.foldl_cons, List.foldl_nil]
  rw [find_entries_eq_filter]
  simp only []
  by_cases h : (s.nameIndex.filter (fun e => endsWithR e (":" ++ uid))).isEmpty
  · simp only [if_pos h]
    rw [List.isEmpty_iff] at h
    rw [List.filter_eq_nil_iff]
    intro e he hcontra
    have he' : e ∈ s.nameIndex := (List.mem_filter.mp he).1
    have : e ∈ s.nameIndex.filter (fun x => endsWithR x (":" ++ uid)) :=
      List.mem_filter.mpr ⟨he', by simpa using hcontra⟩
    rw [h] at this
    exact absurd this (List.not_mem_nil e)
  · simp only [if_neg h, List.nil_append]
    rw [List.filter_eq_nil_iff]
    intro e he hcontra
    have he' : e ∈ s.nameIndex := (List.mem_filter.mp he).1
    have hnotin : e ∉ s.nameIndex.filter (fun x => endsWithR x (":" ++ uid)) :=
      of_decide_eq_true (List.mem_filter.mp he).2
    exact hnotin (List.mem_filter.mpr ⟨he', by simpa using hcontra⟩)

/-- Any entry ending in the user's suffix is gone after the delete
phase. -/
theorem not_mem_after_delete (s : SearchState) (uid m : String)
    (hends : endsWithR m (":" ++ uid) = true) :
    m ∉ (delete_existing_records [uid] s).nameIndex := by
  intro hmem
  have : m ∈ (delete_existing_records [uid] s).nameIndex.filter
      (fun e => endsWithR e (":" ++ uid)) :=
    List.mem_filter.mpr ⟨hmem, hends⟩
  rw [delete_phase_clears_suffix] at this
  exact absurd this (List.not_mem_nil m)

theorem delete_idIndex (s : SearchState) (uid : String) :
    (delete_existing_records [uid] s).idIndex = zrem s.idIndex [uid] := by
  unfold delete_existing_records
  simp only [List.isEmpty_cons, Bool.false_eq_true, if_false]

theorem not_mem_zrem_self (idx : List String) (uid : String) :
    uid ∉ zrem idx [uid] := by
  intro hmem
  have := of_decide_eq_true (List.mem_filter.mp hmem).2
  exact this (List.mem_singleton.mpr rfl)

/-- `put_to_index` on a single, not-deleted user reduces to: delete the
old records, then insert the lowercased pair and the id. -/
theorem put_to_index_single (X Name : String) (s : SearchState)
    (h : Name ≠ "[DELETED]") :
    put_to_index [⟨X, Name⟩] s
      = { nameIndex := zadd (delete_existing_records [X] s).nameIndex
            (toLowerR Name ++ ":" ++ X)
          idIndex := zadd (delete_existing_records [X] s).idIndex X } := by
  unfold put_to_index zaddAll
  simp [h]

theorem count_pair_after_put (s : SearchState) (X Name : String)
    (h : Name ≠ "[DELETED]") :
    ((put_to_index [⟨X, Name⟩] s).nameIndex).count
      (toLowerR Name ++ ":" ++ X) = 1 := by
  rw [put_to_index_single X Name s h]
  have hp : endsWithR (toLowerR Name ++ ":" ++ X) (":" ++ X) = true :=
    endsWithR_pair _ _
  have hnm : (toLowerR Name ++ ":" ++ X)
      ∉ (delete_existing_records [X] s).nameIndex :=
    not_mem_after_delete s X _ hp
  show ((zadd (delete_existing_records [X] s).nameIndex
    (toLowerR Name ++ ":" ++ X)).count (toLowerR Name ++ ":" ++ X)) = 1
  unfold zadd
  rw [if_neg hnm, List.count_append, List.count_eq_zero.mpr hnm]
  simp

theorem other_pair_not_mem_after_put (s : SearchState)
    (X Name other : String) (h : Name ≠ "[DELETED]")
    (hends : endsWithR other (":" ++ X) = true)
    (hne : other ≠ toLowerR Name ++ ":" ++ X) :
    other ∉ (put_to_index [⟨X, Name⟩] s).nameIndex := by
  rw [put_to_index_single X Name s h]
  intro hmem
  have hnm : (toLowerR Name ++ ":" ++ X)
      ∉ (delete_existing_records [X] s).nameIndex :=
    not_mem_after_delete s X _ (endsWithR_pair _ _)
  unfold zadd at hmem
  rw [if_neg hnm] at hmem
  rcases List.mem_append.mp hmem with hin | hin
  · exact (not_mem_after_delete s X other hends) hin
  · exact hne (List.mem_singleton.mp hin)

end UserSearchModel

namespace RunnerModel

/-! ## `nexus-watcher/src/service/traits/tevent_processor_runner.rs`

The trait's provided methods `pre_run_all`, `run_all` and `run_default`
are embedded directly.  A processor run's result type `RunError` and the
statistics containers (`RunAllProcessorsStats`, `ProcessorRunStatus`,
`add_run_result`, the `count_*` accessors) live in the crate's
`service::stats` / `service::traits::tevent_processor` modules, which are
not part of the staged sources; they are modelled from the spec's
exit/outcome surface (§6: counts of Ok, Error, Panicked, TimedOut,
FailedToBuild plus per-homeserver outcome records).  Wall-clock durations
are not modelled.  The shutdown watch receiver is modelled as the
sequence of values it yields at each `borrow()` in the loop. -/

/-- The error of one processor run (`RunError`), as matched in
`run_all`/`run_default`: `Internal(_)`, `Panicked`, `TimedOut`. -/
inductive RunError
  | internal (message : String)
  | panicked
  | timedOut
deriving DecidableEq, Repr

/-- Modelled from the spec: `ProcessorRunStatus`, the per-homeserver
outcome kind of the statistics object (its definition is in the
unstaged `service::stats` module). -/
inductive ProcessorRunStatus
  | ok
  | error
  | panic
  | timeout
  | failedToBuild
deriving DecidableEq, Repr

/-- One homeserver's injected behavior: its `build` either fails or
yields a processor whose `run` returns the given result. -/
inductive HsBehavior
  | failsToBuild
  | runs (result : Except RunError Unit)

/-- The status computed by the `match` in `run_all`/`run_default` for
one homeserver. -/
def classify : HsBehavior → ProcessorRunStatus
  | .failsToBuild => .failedToBuild
  | .runs (.ok _) => .ok
  | .runs (.error (.internal _)) => .error
  | .runs (.error .panicked) => .panic
  | .runs (.error .timedOut) => .timeout

/-- Modelled from the spec: one entry of `RunAllProcessorsStats.stats`
(homeserver id and outcome; the recorded duration is not modelled). -/
structure RunStat where
  hsId : String
  status : ProcessorRunStatus
deriving DecidableEq, Repr

/-- Modelled from the spec: the aggregated statistics object. -/
structure RunAllProcessorsStats where
  stats : List RunStat
deriving DecidableEq, Repr

/-- Modelled from the spec: `add_run_result` appends one outcome
record. -/
def add_run_result (st : RunAllProcessorsStats) (hsId : String)
    (status : ProcessorRunStatus) : RunAllProcessorsStats :=
  ⟨st.stats ++ [⟨hsId, status⟩]⟩

/-- Modelled from the spec: the `count_*` accessors of
`RunAllProcessorsStats` count the outcomes of one kind. -/
def countStatus (st : RunAllProcessorsStats) (x : ProcessorRunStatus) :
    Nat :=
  (st.stats.filter (fun r => decide (r.status = x))).length

def count_ok (st : RunAllProcessorsStats) : Nat := countStatus st .ok
def count_error (st : RunAllProcessorsStats) : Nat := countStatus st .error
def count_panic (st : RunAllProcessorsStats) : Nat := countStatus st .panic
def count_timeout (st : RunAllProcessorsStats) : Nat :=
  countStatus st .timeout
def count_failed_to_build (st : RunAllProcessorsStats) : Nat :=
  countStatus st .failedToBuild

/-- Embedding of `pre_run_all`: the priority-ordered id list (already
excluding the default homeserver, per `homeservers_by_priority`'s
contract), truncated to `monitored_homeservers_limit`. -/
def pre_run_all (homeserversByPriority : List String) (limit : Nat) :
    List String :=
  homeserversByPriority.take (min limit homeserversByPriority.length)

/-- The loop of `run_all`: before each homeserver the shutdown flag is
read (`shutdown i` is the value seen before the `i`-th homeserver) and
the loop breaks if it is set; otherwise build-and-run yields exactly one
status, appended via `add_run_result`. -/
def run_all_loop (shutdown : Nat → Bool) (behavior : String → HsBehavior) :
    List String → Nat → RunAllProcessorsStats → RunAllProcessorsStats
  | [], _, acc => acc
  | hsId :: rest, i, acc =>
    if shutdown i then acc
    else
      run_all_loop shutdown behavior rest (i + 1)
        (add_run_result acc hsId (classify (behavior hsId)))

/-- Embedding of `run_all` (post_run_all only logs and rewraps the stats
unchanged, so it is the identity on content). -/
def run_all (shutdown : Nat → Bool) (behavior : String → HsBehavior)
    (homeserversByPriority : List String) (limit : Nat) :
    RunAllProcessorsStats :=
  run_all_loop shutdown behavior (pre_run_all homeserversByPriority limit)
    0 ⟨[]⟩

/-- Embedding of `run_default`: one shutdown check, then exactly one
build-and-run of the default homeserver's processor. -/
def run_default (shutdown : Bool) (defaultHs : String)
    (behavior : String → HsBehavior) : RunAllProcessorsStats :=
  if shutdown then ⟨[]⟩
  else ⟨[⟨defaultHs, classify (behavior defaultHs)⟩]⟩

theorem run_all_loop_no_shutdown (behavior : String → HsBehavior)
    (shutdown : Nat → Bool) (h : ∀ i, shutdown i = false) :
    ∀ (ids : List String) (i : Nat) (acc : RunAllProcessorsStats),
      run_all_loop shutdown behavior ids i acc
        = ⟨acc.stats ++ ids.map (fun id => ⟨id, classify (behavior id)⟩)⟩ := by
  intro ids
  induction ids with
  | nil => intro i acc; simp [run_all_loop]
  | cons hsId rest ih =>
    intro i acc
    rw [run_all_loop]
    rw [h i]
    simp only [Bool.false_eq_true, if_false]
    rw [ih (i + 1)]
    simp [add_run_result]

/-- The five outcome kinds are exhaustive and exclusive, so their counts
partition the recorded outcomes. -/
theorem countStatus_partition (st : RunAllProcessorsStats) :
    count_ok st + count_error st + count_panic st + count_timeout st
      + count_failed_to_build st = st.stats.length := by
  unfold count_ok count_error count_panic count_timeout
    count_failed_to_build countStatus
  induction st.stats with
  | nil => simp
  | cons r rest ih =>
    cases hr : r.status <;>
      simp only [List.filter_cons, hr] <;> simp <;> omega

theorem run_all_no_shutdown (behavior : String → HsBehavior)
    (shutdown : Nat → Bool) (h : ∀ i, shutdown i = false)
    (ids : List String) (limit : Nat) :
    run_all shutdown behavior ids limit
      = ⟨(pre_run_all ids limit).map
          (fun id => ⟨id, classify (behavior id)⟩)⟩ := by
  unfold run_all
  rw [run_all_loop_no_shutdown behavior shutdown h]
  simp

end RunnerModel

namespace CountsModel

/-! ## Atomic first-write of counts records

`UserCounts::put_to_index_nx` itself lives in the unstaged
`nexus-common` Redis-ops layer; only its tests
(`nexus-watcher/tests/event_processor/users/concurrent_counts.rs`) are in
the staged sources.  The operation is modelled from the spec:
`create_if_absent(entity, default) -> bool` is a single atomic
server-side operation (a `SET ... NX`-style check-and-set), so `k`
simultaneous calls execute as `k` consecutive atomic steps in some
serialization order; since all `k` calls are identical, every
serialization is the same sequence of steps. -/

/-- The counters of a counts record (spec §3: followers, following,
posts, replies, reposts, tags). -/
structure UserCounts where
  followers : Nat
  following : Nat
  posts : Nat
  replies : Nat
  reposts : Nat
  tags : Nat
deriving DecidableEq, Repr

/-- `UserCounts::default()`: all counters zero. -/
def defaultCounts : UserCounts := ⟨0, 0, 0, 0, 0, 0⟩

/-- The counts keyspace, one optional record per entity id. -/
def Store := List (String × UserCounts)

/-- `UserCounts::get_from_index(id)`. -/
def get_from_index (st : Store) (id : String) : Option UserCounts :=
  (st.find? (fun p => p.1 == id)).map (fun p => p.2)

/-- Modelled from the spec: `put_to_index_nx(id)` — the atomic
create-if-absent (whose Rust body is in the unstaged Redis-ops layer):
creates the supplied record only if no record exists for `id`, returning
whether this call created it, as one atomic step. -/
def put_to_index_nx (counts : UserCounts) (id : String) (st : Store) :
    Store × Bool :=
  match get_from_index st id with
  | some _ => (st, false)
  | none => ((id, counts) :: st, true)

/-- `k` simultaneous `put_to_index_nx` calls for the same entity,
serialized by the store's atomicity; returns the final store and the
per-call results in serialization order. -/
def runConcurrent (k : Nat) (counts : UserCounts) (id : String)
    (st : Store) : Store × List Bool :=
  match k with
  | 0 => (st, [])
  | Nat.succ k' =>
    let r := put_to_index_nx counts id st
    let rec' := runConcurrent k' counts id r.1
    (rec'.1, r.2 :: rec'.2)

theorem put_to_index_nx_existing (counts : UserCounts) (id : String)
    (st : Store) (h : (get_from_index st id).isSome) :
    put_to_index_nx counts id st = (st, false) := by
  unfold put_to_index_nx
  cases hg : get_from_index st id with
  | some c => rfl
  | none => rw [hg] at h; simp at h

theorem runConcurrent_existing (counts : UserCounts) (id : String)
    (k : Nat) :
    ∀ (st : Store), (get_from_index st id).isSome →
      runConcurrent k counts id st = (st, List.replicate k false) := by
  induction k with
  | zero => intro st _; simp [runConcurrent]
  | succ k' ih =>
    intro st h
    unfold runConcurrent
    rw [put_to_index_nx_existing counts id st h]
    simp only []
    rw [ih st h]
    simp [List.replicate_succ]

theorem get_from_index_insert (counts : UserCounts) (id : String)
    (st : Store) :
    get_from_index ((id, counts) :: st) id = some counts := by
  unfold get_from_index
  simp [List.find?]

end CountsModel

namespace ProcessorModel

/-! ## `nexus-watcher/src/events/processor.rs`

`poll_events`, `run`, `process_event_lines`, `handle_event` and
`extract_retry_event_info` are embedded.  The transport (the HTTP fetch
of the feed) is a parameter: either a client error or the response body.
The `Event` type, `EventProcessorError` enum, `RetryEvent` and its
`generate_index_key` live in unstaged modules; they are modelled from
the spec (§3 Event/RetryEvent, §4.3 Retry Queue) and from their staged
call sites.  Rust string primitives (`trim`, `lines`, `starts_with`,
`strip_prefix`) are modelled over `String.data`; Lean's
`Char.isWhitespace` (space, tab, CR, LF) stands for Rust's
`char::is_whitespace`. -/

/-- Modelled from the spec: the event operation (`put`/`delete` by feed
convention); its display form builds the retry key's
`"{operation}"` part. -/
inductive EventType
  | put
  | del
deriving DecidableEq, Repr

def EventType.toStr : EventType → String
  | .put => "PUT"
  | .del => "DEL"

/-- Modelled from the spec: the transient unit of work parsed from one
line, restricted to the fields the staged code reads (`uri`,
`event_type`). -/
structure Event where
  uri : String
  eventType : EventType
deriving DecidableEq, Repr

/-- Modelled from the spec and the staged call sites: the domain error
enum `EventProcessorError`.  `InvalidEventLine` is malformed input
(non-retryable); the other variants stand for the retryable domain
errors (e.g. a client or graph failure). -/
inductive EventProcessorError
  | invalidEventLine (message : String)
  | pubkyClientError (message : String)
  | graphError (message : String)
deriving DecidableEq, Repr

/-- The dynamic error a handler returns: either a typed
`EventProcessorError` (a successful `downcast_ref`) or some other boxed
error. -/
inductive DynError
  | processor (e : EventProcessorError)
  | other (message : String)
deriving DecidableEq, Repr

/-- Modelled from the spec: `RetryEvent::new` keeps the error kind. -/
structure RetryEvent where
  errorType : EventProcessorError
deriving DecidableEq, Repr

/-- Modelled from the spec: `RetryEvent::generate_index_key` — a
deterministic, collision-resistant fixed-width compression of the URI
(§4.3); modelled as the decimal form of the string hash, total on all
URIs. -/
def generate_index_key (uri : String) : Option String :=
  some (toString uri.hash)

/-- Embedding of `extract_retry_event_info(event, error)`:
`InvalidEventLine` and errors that fail the downcast are discarded
(`None`); any other domain error is wrapped and keyed by
`"{operation}:{compressed(uri)}"`. -/
def extract_retry_event_info (event : Event) (error : DynError) :
    Option (String × RetryEvent) :=
  match error with
  | .processor (.invalidEventLine _) => none
  | .processor e =>
    match generate_index_key event.uri with
    | some index => some (event.eventType.toStr ++ ":" ++ index, ⟨e⟩)
    | none => none
  | .other _ => none

/-- Embedding of `handle_event(event)` given the handler's outcome
(`none` = success): always returns `Ok(())`; on failure it emits the
retry-queue upsert request computed by `extract_retry_event_info` (a
failure of the upsert itself is only logged). -/
def handle_event (event : Event) (handlerResult : Option DynError) :
    Except DynError Unit × Option (String × RetryEvent) :=
  match handlerResult with
  | none => (Except.ok (), none)
  | some e => (Except.ok (), extract_retry_event_info event e)

/-- Rust's `str::starts_with`. -/
def startsWithR (s pre : String) : Bool :=
  decide (pre.data <+: s.data)

/-- Rust's `str::strip_prefix`. -/
def stripPrefixR (s pre : String) : Option String :=
  if startsWithR s pre then some ⟨s.data.drop pre.data.length⟩ else none

/-- Rust's `str::trim`. -/
def rustTrim (s : String) : String :=
  ⟨((s.data.dropWhile Char.isWhitespace).reverse.dropWhile
    Char.isWhitespace).reverse⟩

/-- Strip one trailing carriage return, as Rust's `str::lines` does. -/
def stripCR (l : List Char) : List Char :=
  if l.getLast? = some '\r' then l.dropLast else l

/-- Rust's `str::lines`: split on `'\n'` as a terminator (a trailing
newline yields no final empty line), dropping one `'\r'` before each
split point. -/
def rustLines (s : String) : List String :=
  if s.data.isEmpty then []
  else
    let parts := (s.data.splitOn '\n').map (fun cs => (⟨stripCR cs⟩ : String))
    if s.data.getLast? = some '\n' then parts.dropLast else parts

/-- Embedding of `poll_events` as a function of the transport outcome:
a client error propagates; otherwise the body is trimmed and split into
lines, and an empty line list (or a single empty line) means no new
events (`Ok(None)`). -/
def poll_events (transport : Except String String) :
    Except String (Option (List String)) :=
  match transport with
  | .error e => .error e
  | .ok responseText =>
    let lines := rustLines (rustTrim responseText)
    if lines.isEmpty || (lines.length == 1 && (lines.headD "").data.isEmpty)
    then .ok none
    else .ok (some lines)

/-- One observable step of `process_event_lines`. -/
inductive Action
  | persistCursor (c : String)
  | dispatch (e : Event)
deriving DecidableEq, Repr

/-- The loop of `process_event_lines`: before each line the shutdown
flag is read (`shutdown i` is the value seen before the `i`-th line) and
the loop returns early if it is set.  A line starting with `"cursor:"`
only updates and persists the cursor when `"cursor: "` strips; any other
line is parsed (`parse` returns the parse outcome; errors are logged to
`None`) and a parsed event is dispatched.  Returns the final cursor and
the ordered action trace. -/
def processLoop (parse : String → Except String (Option Event))
    (shutdown : Nat → Bool) :
    List String → Nat → String → String × List Action
  | [], _, cur => (cur, [])
  | line :: rest, i, cur =>
    if shutdown i then (cur, [])
    else
      if startsWithR line "cursor:" then
        match stripPrefixR line "cursor: " with
        | some c =>
          let r := processLoop parse shutdown rest (i + 1) c
          (r.1, .persistCursor c :: r.2)
        | none => processLoop parse shutdown rest (i + 1) cur
      else
        match parse line with
        | .ok (some ev) =>
          let r := processLoop parse shutdown rest (i + 1) cur
          (r.1, .dispatch ev :: r.2)
        | _ => processLoop parse shutdown rest (i + 1) cur

/-- Embedding of `process_event_lines(shutdown_rx, lines)`. -/
def process_event_lines (parse : String → Except String (Option Event))
    (shutdown : Nat → Bool) (cursor : String) (lines : List String) :
    String × List Action :=
  processLoop parse shutdown lines 0 cursor

/-- Embedding of `run`: poll, then (if events are present) process the
line batch; a poll error propagates to the caller. -/
def run (parse : String → Except String (Option Event))
    (shutdown : Nat → Bool) (cursor : String)
    (transport : Except String String) :
    Except String (String × List Action) :=
  match poll_events transport with
  | .error e => .error e
  | .ok none => .ok (cursor, [])
  | .ok (some lines) => .ok (process_event_lines parse shutdown cursor lines)

/-- The per-line action trace. -/
def lineTrace (parse : String → Except String (Option Event))
    (line : String) : List Action :=
  if startsWithR line "cursor:" then
    match stripPrefixR line "cursor: " with
    | some c => [.persistCursor c]
    | none => []
  else
    match parse line with
    | .ok (some ev) => [.dispatch ev]
    | _ => []

theorem processLoop_no_shutdown
    (parse : String → Except String (Option Event))
    (shutdown : Nat → Bool) (h : ∀ i, shutdown i = false) :
    ∀ (lines : List String) (i : Nat) (cur : String),
      (processLoop parse shutdown lines i cur).2
        = lines.flatMap (lineTrace parse) := by
  intro lines
  induction lines with
  | nil => intro i cur; simp [processLoop]
  | cons line rest ih =>
    intro i cur
    by_cases hc : startsWithR line "cursor:" = true
    · cases hs : stripPrefixR line "cursor: " with
      | some c => simp [processLoop, lineTrace, h i, hc, hs, ih]
      | none => simp [processLoop, lineTrace, h i, hc, hs, ih]
    · cases hp : parse line with
      | ok oev =>
        cases oev with
        | some ev => simp [processLoop, lineTrace, h i, hc, hp, ih]
        | none => simp [processLoop, lineTrace, h i, hc, hp, ih]
      | error e => simp [processLoop, lineTrace, h i, hc, hp, ih]

/-- `"cursor:"` is a prefix of `"cursor: "`, so a `"cursor: "` line also
passes the `starts_with("cursor:")` test. -/
theorem startsWithR_cursor_of_space (line : String)
    (h : startsWithR line "cursor: " = true) :
    startsWithR line "cursor:" = true := by
  unfold startsWithR at *
  rw [decide_eq_true_eq] at *
  exact List.IsPrefix.trans (by decide) h

theorem processLoop_nospace_line
    (parse : String → Except String (Option Event))
    (shutdown : Nat → Bool) (h : ∀ i, shutdown i = false)
    (line : String) (i : Nat) (cur : String)
    (hc : startsWithR line "cursor:" = true)
    (hs : stripPrefixR line "cursor: " = none) :
    processLoop parse shutdown [line] i cur = (cur, []) := by
  rw [processLoop, h i]
  simp only [Bool.false_eq_true, if_false, if_pos hc, hs]
  rw [processLoop]

theorem processLoop_cursor_line
    (parse : String → Except String (Option Event))
    (shutdown : Nat → Bool) (h : ∀ i, shutdown i = false)
    (line c : String) (i : Nat) (cur : String)
    (hs : stripPrefixR line "cursor: " = some c) :
    processLoop parse shutdown [line] i cur = (c, [.persistCursor c]) := by
  have hc : startsWithR line "cursor:" = true := by
    apply startsWithR_cursor_of_space
    unfold stripPrefixR at hs
    by_cases hb : startsWithR line "cursor: "
    · exact hb
    · rw [if_neg hb] at hs; exact absurd hs (by simp)
  rw [processLoop, h i]
  simp only [Bool.false_eq_true, if_false, if_pos hc, hs]
  rw [processLoop]

end ProcessorModel

theorem rustTrim_all_whitespace (s : String)
    (h : ∀ c ∈ s.data, c.isWhitespace) :
    ProcessorModel.rustTrim s = "" := by
  unfold ProcessorModel.rustTrim
  have h1 : s.data.dropWhile Char.isWhitespace = [] :=
    List.dropWhile_eq_nil_iff.mpr h
  rw [h1]
  rfl

/-- C1: atomic first-write of counts records.  Starting from a store with
no record for the entity, `k ≥ 1` simultaneous `put_to_index_nx` calls
(serialized by the store's atomicity) yield exactly one `true` and
`k - 1` `false`, the stored record afterwards equals the supplied
default, and a call that sees an existing record returns `false` without
mutating the store. -/
theorem claim_C1_atomic_first_write (k : Nat) (hk : 1 ≤ k) (id : String)
    (c : CountsModel.UserCounts) (st : CountsModel.Store)
    (habsent : CountsModel.get_from_index st id = none) :
    ((CountsModel.runConcurrent k c id st).2.count true = 1)
    ∧ ((CountsModel.runConcurrent k c id st).2.count false = k - 1)
    ∧ (CountsModel.get_from_index
        (CountsModel.runConcurrent k c id st).1 id = some c)
    ∧ (∀ s : CountsModel.Store, (CountsModel.get_from_index s id).isSome →
        CountsModel.put_to_index_nx c id s = (s, false)) := by
  obtain ⟨kp, rfl⟩ : ∃ kp, k = kp + 1 := ⟨k - 1, by omega⟩
  have h1 : CountsModel.put_to_index_nx c id st = ((id, c) :: st, true) := by
    unfold CountsModel.put_to_index_nx
    rw [habsent]
  have h2 : CountsModel.get_from_index ((id, c) :: st) id = some c :=
    CountsModel.get_from_index_insert c id st
  have h3 : CountsModel.runConcurrent kp c id ((id, c) :: st)
      = ((id, c) :: st, List.replicate kp false) :=
    CountsModel.runConcurrent_existing c id kp _ (by rw [h2]; rfl)
  have hrun : CountsModel.runConcurrent (kp + 1) c id st
      = ((id, c) :: st, true :: List.replicate kp false) := by
    unfold CountsModel.runConcurrent
    rw [h1]
    simp only []
    rw [h3]
  rw [hrun]
  have hz : (List.replicate kp false).count true = 0 := by
    rw [List.count_eq_zero]
    intro hmem
    exact absurd (List.eq_of_mem_replicate hmem) (by decide)
  refine ⟨?_, ?_, h2, ?_⟩
  · simp [List.count_cons, hz]
  · simp [List.count_cons]
  · intro s hs
    exact CountsModel.put_to_index_nx_existing c id s hs

/-- Witness for C1: three concurrent initializations of `user1`'s counts
on an empty store. -/
theorem claim_C1_witness :
    (CountsModel.runConcurrent 3 CountsModel.defaultCounts "user1"
      []).2.count true = 1
    ∧ (CountsModel.runConcurrent 3 CountsModel.defaultCounts "user1"
        []).2.count false = 2
    ∧ CountsModel.get_from_index
        (CountsModel.runConcurrent 3 CountsModel.defaultCounts "user1" []).1
        "user1" = some CountsModel.defaultCounts := by
  have h := claim_C1_atomic_first_write 3 (by decide) "user1"
    CountsModel.defaultCounts [] (by decide)
  exact ⟨h.1, h.2.1, h.2.2.1⟩

/-- C4: fault isolation in `run_all`.  With no shutdown raised, `run_all`
records exactly one outcome per pooled homeserver — the one classified
from that homeserver's own behavior (build failure ⇒ `FailedToBuild`,
loop continues) — so the five outcome counts sum to the pool size and no
homeserver's failure affects another's classification. -/
theorem claim_C4_fault_isolation (shutdown : Nat → Bool)
    (h : ∀ i, shutdown i = false)
    (behavior : String → RunnerModel.HsBehavior)
    (ids : List String) (limit : Nat) :
    ((RunnerModel.run_all shutdown behavior ids limit).stats
      = (RunnerModel.pre_run_all ids limit).map
          (fun hs => ⟨hs, RunnerModel.classify (behavior hs)⟩))
    ∧ ((RunnerModel.run_all shutdown behavior ids limit).stats.length
        = (RunnerModel.pre_run_all ids limit).length)
    ∧ (RunnerModel.count_ok (RunnerModel.run_all shutdown behavior ids limit)
        + RunnerModel.count_error
            (RunnerModel.run_all shutdown behavior ids limit)
        + RunnerModel.count_panic
            (RunnerModel.run_all shutdown behavior ids limit)
        + RunnerModel.count_timeout
            (RunnerModel.run_all shutdown behavior ids limit)
        + RunnerModel.count_failed_to_build
            (RunnerModel.run_all shutdown behavior ids limit)
        = (RunnerModel.pre_run_all ids limit).length)
    ∧ (∀ r ∈ (RunnerModel.run_all shutdown behavior ids limit).stats,
        r.status = RunnerModel.classify (behavior r.hsId)) := by
  have hs := RunnerModel.run_all_no_shutdown behavior shutdown h ids limit
  refine ⟨by rw [hs], by rw [hs]; simp, ?_, ?_⟩
  · rw [RunnerModel.countStatus_partition, hs]
    simp
  · intro r hr
    rw [hs] at hr
    obtain ⟨hsId, _, rfl⟩ := List.mem_map.mp hr
    rfl

/-- Witness for C4: a pool mixing a succeeding, a panicking, a
timing-out, a build-failing and an erroring homeserver. -/
theorem claim_C4_witness :
    ((RunnerModel.run_all (fun _ => false)
      (fun id =>
        if id = "hs-panic" then .runs (.error .panicked)
        else if id = "hs-slow" then .runs (.error .timedOut)
        else if id = "hs-missing" then .failsToBuild
        else if id = "hs-err" then .runs (.error (.internal "store down"))
        else .runs (.ok ()))
      ["hs-a", "hs-panic", "hs-slow", "hs-missing", "hs-err"] 10).stats
      = [⟨"hs-a", .ok⟩, ⟨"hs-panic", .panic⟩, ⟨"hs-slow", .timeout⟩,
          ⟨"hs-missing", .failedToBuild⟩, ⟨"hs-err", .error⟩])
    ∧ (RunnerModel.count_ok (RunnerModel.run_all (fun _ => false)
        (fun id =>
          if id = "hs-panic" then .runs (.error .panicked)
          else if id = "hs-slow" then .runs (.error .timedOut)
          else if id = "hs-missing" then .failsToBuild
          else if id = "hs-err" then .runs (.error (.internal "store down"))
          else .runs (.ok ()))
        ["hs-a", "hs-panic", "hs-slow", "hs-missing", "hs-err"] 10)
      + RunnerModel.count_error (RunnerModel.run_all (fun _ => false)
        (fun id =>
          if id = "hs-panic" then .runs (.error .panicked)
          else if id = "hs-slow" then .runs (.error .timedOut)
          else if id = "hs-missing" then .failsToBuild
          else if id = "hs-err" then .runs (.error (.internal "store down"))
          else .runs (.ok ()))
        ["hs-a", "hs-panic", "hs-slow", "hs-missing", "hs-err"] 10)
      + RunnerModel.count_panic (RunnerModel.run_all (fun _ => false)
        (fun id =>
          if id = "hs-panic" then .runs (.error .panicked)
          else if id = "hs-slow" then .runs (.error .timedOut)
          else if id = "hs-missing" then .failsToBuild
          else if id = "hs-err" then .runs (.error (.internal "store down"))
          else .runs (.ok ()))
        ["hs-a", "hs-panic", "hs-slow", "hs-missing", "hs-err"] 10)
      + RunnerModel.count_timeout (RunnerModel.run_all (fun _ => false)
        (fun id =>
          if id = "hs-panic" then .runs (.error .panicked)
          else if id = "hs-slow" then .runs (.error .timedOut)
          else if id = "hs-missing" then .failsToBuild
          else if id = "hs-err" then .runs (.error (.internal "store down"))
          else .runs (.ok ()))
        ["hs-a", "hs-panic", "hs-slow", "hs-missing", "hs-err"] 10)
      + RunnerModel.count_failed_to_build (RunnerModel.run_all (fun _ => false)
        (fun id =>
          if id = "hs-panic" then .runs (.error .panicked)
          else if id = "hs-slow" then .runs (.error .timedOut)
          else if id = "hs-missing" then .failsToBuild
          else if id = "hs-err" then .runs (.error (.internal "store down"))
          else .runs (.ok ()))
        ["hs-a", "hs-panic", "hs-slow", "hs-missing", "hs-err"] 10) = 5) := by
  have h := claim_C4_fault_isolation (fun _ => false) (fun i => rfl)
    (fun id =>
      if id = "hs-panic" then .runs (.error .panicked)
      else if id = "hs-slow" then .runs (.error .timedOut)
      else if id = "hs-missing" then .failsToBuild
      else if id = "hs-err" then .runs (.error (.internal "store down"))
      else .runs (.ok ()))
    ["hs-a", "hs-panic", "hs-slow", "hs-missing", "hs-err"] 10
  constructor
  · rw [h.1]
    decide
  · rw [h.2.2.1]
    decide

/-- C5 counterexample: with the shutdown signal already raised,
`run_default` returns statistics with zero recorded outcomes, refuting
"for every runner state ... exactly one recorded outcome". -/
theorem claim_C5_counterexample :
    (RunnerModel.run_default true "default-hs"
      (fun _ => .runs (.ok ()))).stats.length ≠ 1 := by
  decide

/-- C5 (amended): `run_default` checks the shutdown signal before
starting; whenever it is not raised it builds and runs exactly one
processor for the default homeserver and records exactly one outcome for
it (independent of any pool), and when it is raised it skips the run and
records zero outcomes. -/
theorem claim_C5_run_default_one_outcome (shutdown : Bool) (d : String)
    (behavior : String → RunnerModel.HsBehavior) :
    (shutdown = false →
      (RunnerModel.run_default shutdown d behavior).stats
        = [⟨d, RunnerModel.classify (behavior d)⟩])
    ∧ (shutdown = true →
        (RunnerModel.run_default shutdown d behavior).stats = []) := by
  constructor
  · intro hs
    subst hs
    rfl
  · intro hs
    subst hs
    rfl

/-- Witness for C5: the default homeserver yields its single outcome when
shutdown is clear, and none when it is set. -/
theorem claim_C5_witness :
    (RunnerModel.run_default false "hs0"
      (fun _ => .runs (.ok ()))).stats = [⟨"hs0", .ok⟩]
    ∧ (RunnerModel.run_default true "hs0"
        (fun _ => .runs (.ok ()))).stats = [] := by
  have h1 := claim_C5_run_default_one_outcome false "hs0"
    (fun _ => .runs (.ok ()))
  have h2 := claim_C5_run_default_one_outcome true "hs0"
    (fun _ => .runs (.ok ()))
  exact ⟨h1.1 rfl, h2.2 rfl⟩

/-- C6: pool partition.  `pre_run_all` returns exactly the first
`min(N, m)` ids of the priority list, in the same order (it is a prefix),
and never contains the default homeserver id (which
`homeservers_by_priority` already excludes). -/
theorem claim_C6_pool_partition (ids : List String) (N : Nat) (d : String)
    (hd : d ∉ ids) :
    RunnerModel.pre_run_all ids N = ids.take N
    ∧ (RunnerModel.pre_run_all ids N).length = min N ids.length
    ∧ RunnerModel.pre_run_all ids N <+: ids
    ∧ d ∉ RunnerModel.pre_run_all ids N := by
  refine ⟨?_, ?_, ?_, ?_⟩
  · unfold RunnerModel.pre_run_all
    rcases le_total N ids.length with h | h
    · rw [min_eq_left h]
    · rw [min_eq_right h, List.take_of_length_le h,
        List.take_of_length_le (le_refl _)]
  · unfold RunnerModel.pre_run_all
    simp only [List.length_take]
    omega
  · unfold RunnerModel.pre_run_all
    exact List.take_prefix _ _
  · intro hmem
    exact hd ((List.take_prefix _ _).subset hmem)

/-- Witness for C6: a three-element priority pool truncated to two. -/
theorem claim_C6_witness :
    RunnerModel.pre_run_all ["h1", "h2", "h3"] 2 = ["h1", "h2"]
    ∧ (RunnerModel.pre_run_all ["h1", "h2", "h3"] 2).length
        = min 2 (["h1", "h2", "h3"] : List String).length
    ∧ "h0" ∉ RunnerModel.pre_run_all ["h1", "h2", "h3"] 2 := by
  have h := claim_C6_pool_partition ["h1", "h2", "h3"] 2 "h0" (by decide)
  refine ⟨?_, h.2.1, h.2.2.2⟩
  rw [h.1]
  rfl

/-- C7: retry classification.  A handler failure on a well-formed event
is discarded when it is malformed-input (`InvalidEventLine`) or fails the
domain-error downcast, and otherwise wrapped as a `RetryEvent` enqueued
under `"{operation}:{compressed(uri)}"`; in every case `handle_event`
returns success so the batch continues with the next line. -/
theorem claim_C7_retry_classification (event : ProcessorModel.Event) :
    (ProcessorModel.handle_event event none = (Except.ok (), none))
    ∧ (∀ m, ProcessorModel.handle_event event
        (some (.processor (.invalidEventLine m))) = (Except.ok (), none))
    ∧ (∀ epe : ProcessorModel.EventProcessorError,
        (∀ m, epe ≠ .invalidEventLine m) →
        ProcessorModel.generate_index_key event.uri
            = some (toString event.uri.hash)
        ∧ ProcessorModel.handle_event event (some (.processor epe))
            = (Except.ok (), some
                (event.eventType.toStr ++ ":" ++ toString event.uri.hash,
                  ⟨epe⟩)))
    ∧ (∀ r : Option ProcessorModel.DynError,
        (ProcessorModel.handle_event event r).1 = Except.ok ())
    ∧ (∀ m, ProcessorModel.handle_event event (some (.other m))
        = (Except.ok (), none)) := by
  refine ⟨rfl, fun m => rfl, ?_, ?_, fun m => rfl⟩
  · intro epe hne
    refine ⟨rfl, ?_⟩
    cases epe with
    | invalidEventLine m => exact absurd rfl (hne m)
    | pubkyClientError m => rfl
    | graphError m => rfl
  · intro r
    cases r with
    | none => rfl
    | some e => rfl

/-- Witness for C7: a graph failure is enqueued under its event's
operation and compressed URI; a malformed-input error is discarded. -/
theorem claim_C7_witness :
    ProcessorModel.handle_event ⟨"pubky://u/pub/posts/1", .put⟩
      (some (.processor (.graphError "write failed")))
      = (Except.ok (), some
          ("PUT" ++ ":" ++ toString ("pubky://u/pub/posts/1" : String).hash,
            ⟨.graphError "write failed"⟩))
    ∧ ProcessorModel.handle_event ⟨"pubky://u/pub/posts/1", .put⟩
        (some (.processor (.invalidEventLine "bad line")))
      = (Except.ok (), none) := by
  have h := claim_C7_retry_classification ⟨"pubky://u/pub/posts/1", .put⟩
  exact ⟨(h.2.2.1 (.graphError "write failed")
    (fun m hx => ProcessorModel.EventProcessorError.noConfusion hx)).2,
    h.2.1 "bad line"⟩

/-- C8: an empty poll is not an error.  A response body that is empty or
all whitespace makes `poll_events` return `Ok(None)` ("no new events"),
and `run` then completes successfully without processing any line; a
transport error is the only poll failure and is propagated unchanged. -/
theorem claim_C8_empty_poll_not_error (body : String)
    (h : ∀ c ∈ body.data, c.isWhitespace)
    (parse : String → Except String (Option ProcessorModel.Event))
    (shutdown : Nat → Bool) (cursor : String) :
    ProcessorModel.poll_events (Except.ok body) = Except.ok none
    ∧ ProcessorModel.run parse shutdown cursor (Except.ok body)
        = Except.ok (cursor, [])
    ∧ (∀ err : String,
        ProcessorModel.poll_events (Except.error err) = Except.error err
        ∧ ProcessorModel.run parse shutdown cursor (Except.error err)
            = Except.error err) := by
  have htrim := rustTrim_all_whitespace body h
  have hp : ProcessorModel.poll_events (Except.ok body) = Except.ok none := by
    simp only [ProcessorModel.poll_events, htrim]
    rfl
  refine ⟨hp, ?_, ?_⟩
  · unfold ProcessorModel.run
    rw [hp]
  · intro err
    exact ⟨rfl, rfl⟩

/-- Witness for C8: a whitespace-only body polls to `Ok(None)` and runs
to completion; a transport error propagates. -/
theorem claim_C8_witness :
    ProcessorModel.poll_events (Except.ok "  \n \t ") = Except.ok none
    ∧ ProcessorModel.run (fun _ => Except.ok none) (fun _ => false) "c0"
        (Except.ok "  \n \t ") = Except.ok ("c0", [])
    ∧ ProcessorModel.poll_events (Except.error "connection reset")
        = Except.error "connection reset" := by
  have h := claim_C8_empty_poll_not_error "  \n \t " (by decide)
    (fun _ => Except.ok none) (fun _ => false) "c0"
  exact ⟨h.1, h.2.1, (h.2.2 "connection reset").1⟩

/-- C10: cursor-line handling.  With no shutdown raised, the batch's
action trace is the in-order concatenation of each line's actions — so a
cursor persisted by one line precedes every later line's handling; a
line's actions are `[persistCursor c]` exactly when `"cursor: "` strips
to `c`; and a line starting with `"cursor:"` but lacking the space is
consumed silently: no cursor update, no persist, no dispatch. -/
theorem claim_C10_cursor_line_handling
    (parse : String → Except String (Option ProcessorModel.Event))
    (shutdown : Nat → Bool) (h : ∀ i, shutdown i = false) :
    (∀ (lines : List String) (cur : String),
      (ProcessorModel.process_event_lines parse shutdown cur lines).2
        = lines.flatMap (ProcessorModel.lineTrace parse))
    ∧ (∀ (line c : String) (i : Nat) (cur : String),
        ProcessorModel.stripPrefixR line "cursor: " = some c →
        ProcessorModel.processLoop parse shutdown [line] i cur
          = (c, [.persistCursor c]))
    ∧ (∀ (line : String) (i : Nat) (cur : String),
        ProcessorModel.startsWithR line "cursor:" = true →
        ProcessorModel.stripPrefixR line "cursor: " = none →
        ProcessorModel.processLoop parse shutdown [line] i cur
          = (cur, [])) := by
  refine ⟨?_, ?_, ?_⟩
  · intro lines cur
    exact ProcessorModel.processLoop_no_shutdown parse shutdown h lines 0 cur
  · intro line c i cur hs
    exact ProcessorModel.processLoop_cursor_line parse shutdown h line c i
      cur hs
  · intro line i cur hc hs
    exact ProcessorModel.processLoop_nospace_line parse shutdown h line i
      cur hc hs

/-- Witness for C10: a proper cursor line persists its token, a
space-less `cursor:` line does nothing, and a two-line batch's trace is
the per-line concatenation. -/
theorem claim_C10_witness :
    ProcessorModel.processLoop (fun _ => Except.ok none) (fun _ => false)
      ["cursor: tok42"] 0 "c0" = ("tok42", [.persistCursor "tok42"])
    ∧ ProcessorModel.processLoop (fun _ => Except.ok none) (fun _ => false)
        ["cursor:tok42"] 0 "c0" = ("c0", [])
    ∧ (ProcessorModel.process_event_lines (fun _ => Except.ok none)
        (fun _ => false) "c0" ["cursor:skip", "cursor: tok42"]).2
      = ["cursor:skip", "cursor: tok42"].flatMap
          (ProcessorModel.lineTrace (fun _ => Except.ok none)) := by
  have h := claim_C10_cursor_line_handling (fun _ => Except.ok none)
    (fun _ => false) (fun i => rfl)
  exact ⟨h.2.1 "cursor: tok42" "tok42" 0 "c0" (by decide),
    h.2.2 "cursor:tok42" 0 "c0" (by decide) (by decide),
    h.1 ["cursor:skip", "cursor: tok42"] "c0"⟩

/-- C3: deduplicating append.  For every sequence of calls to the list
`put` operation starting from an absent key, the final content is each
value once, in order of first occurrence across all calls (equivalently:
it is duplicate-free and a value is a member exactly when some call
supplied it); the concrete example `put [a,b,a,c]` then `put [a,d]` gives
`[a,b,c,d]`; and a call with an empty value slice leaves the key
untouched.  Each call is modelled as a single atomic function application,
mirroring the single server-side Lua script. -/
theorem claim_C3_dedup_append :
    (∀ calls : List (List String),
        KvLists.putCalls calls = KvLists.keepFirst calls.flatten)
    ∧ (∀ calls : List (List String), (KvLists.putCalls calls).Nodup)
    ∧ (∀ (calls : List (List String)) (x : String),
        x ∈ KvLists.putCalls calls ↔ x ∈ calls.flatten)
    ∧ (∀ l : List String, KvLists.put l [] = l)
    ∧ KvLists.putCalls [["a", "b", "a", "c"], ["a", "d"]]
        = ["a", "b", "c", "d"] := by
  refine ⟨KvLists.putCalls_eq_keepFirst, ?_, ?_, ?_, by decide⟩
  · intro calls
    rw [KvLists.putCalls_eq_keepFirst]
    exact KvLists.keepFirst_nodup _
  · intro calls x
    rw [KvLists.putCalls_eq_keepFirst]
    exact KvLists.mem_keepFirst _ _
  · intro l
    simp [KvLists.put]

/-- C9 (implicit): with the `limit` argument omitted, `get_range` defaults
it to `usize::MAX`, whose `as isize` cast wraps to `-1`, making the
requested end index `skip - 2`; for `skip = 0` Redis resolves `-2` to the
second-to-last element, so a stored list of length `n` yields only its
first `n - 1` elements (never the last) and `None` when `n ≤ 1`, while an
explicit in-range limit has no such truncation. -/
theorem claim_C9_default_limit_truncates :
    KvLists.isizeOfUsize KvLists.usizeMAX = -1
    ∧ (∀ l : List String,
        KvLists.get_range l (some 0) none
          = if l.length ≤ 1 then none else some (l.take (l.length - 1)))
    ∧ (∀ (l : List String) (L : Nat), l ≠ [] → l.length ≤ L → L < 2 ^ 63 →
        KvLists.get_range l (some 0) (some L) = some l) :=
  ⟨KvLists.isizeOfUsize_usizeMAX, KvLists.get_range_none_none,
    KvLists.get_range_explicit_limit⟩

/-- C2: rename leaves no duplicate and delete leaves no orphan in the
user search indexes.  `put_to_index` first removes every name-index entry
ending in `":{X}"` (found by a full scan, not a secondary pointer) and
removes `X` from the id index, before inserting the new lowercased pair;
hence after renaming `X` from `Foo` to `Bar` the entry `bar:X` is stored
exactly once and `foo:X` not at all, and after `delete_from_index(X)` no
entry for `X` survives in either index. -/
theorem claim_C2_rename_no_duplicate_no_orphan
    (s : UserSearchModel.SearchState) (X Foo Bar : String)
    (hBar : Bar ≠ "[DELETED]")
    (hne : UserSearchModel.toLowerR Foo ++ ":" ++ X
      ≠ UserSearchModel.toLowerR Bar ++ ":" ++ X) :
    ((UserSearchModel.put_to_index [⟨X, Bar⟩]
        (UserSearchModel.put_to_index [⟨X, Foo⟩] s)).nameIndex.count
      (UserSearchModel.toLowerR Bar ++ ":" ++ X) = 1)
    ∧ ((UserSearchModel.toLowerR Foo ++ ":" ++ X)
        ∉ (UserSearchModel.put_to_index [⟨X, Bar⟩]
            (UserSearchModel.put_to_index [⟨X, Foo⟩] s)).nameIndex)
    ∧ ((UserSearchModel.delete_from_index X
          (UserSearchModel.put_to_index [⟨X, Bar⟩]
            (UserSearchModel.put_to_index [⟨X, Foo⟩] s))).nameIndex.filter
        (fun e => UserSearchModel.endsWithR e (":" ++ X))) = []
    ∧ (X ∉ (UserSearchModel.delete_from_index X
          (UserSearchModel.put_to_index [⟨X, Bar⟩]
            (UserSearchModel.put_to_index [⟨X, Foo⟩] s))).idIndex)
    ∧ (∀ (s' : UserSearchModel.SearchState) (uid : String),
        ((UserSearchModel.delete_existing_records [uid] s').nameIndex.filter
          (fun e => UserSearchModel.endsWithR e (":" ++ uid))) = []) := by
  refine ⟨?_, ?_, ?_, ?_, ?_⟩
  · exact UserSearchModel.count_pair_after_put _ X Bar hBar
  · exact UserSearchModel.other_pair_not_mem_after_put _ X Bar _ hBar
      (UserSearchModel.endsWithR_pair _ _) hne
  · exact UserSearchModel.delete_phase_clears_suffix _ X
  · intro hmem
    rw [UserSearchModel.delete_from_index,
      UserSearchModel.delete_idIndex] at hmem
    exact UserSearchModel.not_mem_zrem_self _ X hmem
  · intro s' uid
    exact UserSearchModel.delete_phase_clears_suffix s' uid

/-- Witness for C2 at concrete inputs: renaming user `x1` from `Foo` to
`Bar` on a state that already holds stale entries for `x1`. -/
theorem claim_C2_witness :
    ((UserSearchModel.put_to_index [⟨"x1", "Bar"⟩]
        (UserSearchModel.put_to_index [⟨"x1", "Foo"⟩]
          ⟨["stale:x1", "alice:a2"], ["x1", "a2"]⟩)).nameIndex.count
      (UserSearchModel.toLowerR "Bar" ++ ":" ++ "x1") = 1)
    ∧ ((UserSearchModel.toLowerR "Foo" ++ ":" ++ "x1")
        ∉ (UserSearchModel.put_to_index [⟨"x1", "Bar"⟩]
            (UserSearchModel.put_to_index [⟨"x1", "Foo"⟩]
              ⟨["stale:x1", "alice:a2"], ["x1", "a2"]⟩)).nameIndex)
    ∧ ((UserSearchModel.delete_from_index "x1"
          (UserSearchModel.put_to_index [⟨"x1", "Bar"⟩]
            (UserSearchModel.put_to_index [⟨"x1", "Foo"⟩]
              ⟨["stale:x1", "alice:a2"], ["x1", "a2"]⟩))).nameIndex.filter
        (fun e => UserSearchModel.endsWithR e (":" ++ "x1"))) = []
    ∧ ("x1" ∉ (UserSearchModel.delete_from_index "x1"
          (UserSearchModel.put_to_index [⟨"x1", "Bar"⟩]
            (UserSearchModel.put_to_index [⟨"x1", "Foo"⟩]
              ⟨["stale:x1", "alice:a2"], ["x1", "a2"]⟩))).idIndex) := by
  have h := claim_C2_rename_no_duplicate_no_orphan
    ⟨["stale:x1", "alice:a2"], ["x1", "a2"]⟩ "x1" "Foo" "Bar"
    (by decide) (by decide)
  exact ⟨h.1, h.2.1, h.2.2.1, h.2.2.2.1⟩

/-- Witness for C9 at concrete inputs: a three-element list loses its last
element under the default limit, a one-element list yields `None`, and an
explicit limit of 10 returns the whole list. -/
theorem claim_C9_witness :
    (if (["a", "b", "c"] : List String).length ≤ 1 then none
      else some ((["a", "b", "c"] : List String).take
        ((["a", "b", "c"] : List String).length - 1)))
      = some ["a", "b"]
    ∧ KvLists.get_range ["a", "b", "c"] (some 0) none = some ["a", "b"]
    ∧ KvLists.get_range ["a"] (some 0) none = none
    ∧ KvLists.get_range ["a", "b"] (some 0) (some 10) = some ["a", "b"] := by
  refine ⟨by decide, ?_, ?_, ?_⟩
  · rw [claim_C9_default_limit_truncates.2.1 ["a", "b", "c"]]
    decide
  · rw [claim_C9_default_limit_truncates.2.1 ["a"]]
    decide
  · exact claim_C9_default_limit_truncates.2.2 ["a", "b"] 10 (by decide)
      (by decide) (by norm_num)

